import Mathlib

/-!
Verification of the STEGTEST repository (file
`src/jpeg_parser_phase1_marker_parsing.c`) against its specification.

The C source under `src/` is a placeholder `main` that prints two status
lines and returns 0.  We embed it as a pure function over an explicit
stdout state.  The specification additionally describes the intended JPEG
decoding core (marker parser, canonical Huffman construction, bit reader,
DC prediction, zig-zag reordering); those components are absent from
`src/`, so they are modelled from the spec, each such definition marked
`Modelled from the spec:` in its doc comment.
-/

namespace Stegtest

/-- Stdout as an ordered list of printed lines. -/
structure StdOut where
  lines : List String
deriving DecidableEq, Repr

/-- One `printf("...\n")` call: appends a newline-terminated line to stdout. -/
def printfLine (s : String) (out : StdOut) : StdOut :=
  ⟨out.lines ++ [s]⟩

/-- The `main` of `src/jpeg_parser_phase1_marker_parsing.c`: two `printf`
calls then `return 0`, with `argc`/`argv` taken but unused. -/
def main (argc : Nat) (argv : List String) : StdOut × Int :=
  let out : StdOut := ⟨[]⟩
  let out := printfLine "JPEG Parser Phase 1: Marker Parsing - Initializing" out
  let out := printfLine "JPEG Parser Execution Complete (Placeholder)" out
  (out, 0)

/-- Modelled from the spec: the fixed standard zig-zag permutation table
(natural 8x8 row-major position of each zig-zag index); the table itself is
absent from `src/`. -/
def zigzag : List Nat :=
  [ 0,  1,  8, 16,  9,  2,  3, 10,
   17, 24, 32, 25, 18, 11,  4,  5,
   12, 19, 26, 33, 40, 48, 41, 34,
   27, 20, 13,  6,  7, 14, 21, 28,
   35, 42, 49, 56, 57, 50, 43, 36,
   29, 22, 15, 23, 30, 37, 44, 51,
   58, 59, 52, 45, 38, 31, 39, 46,
   53, 60, 61, 54, 47, 55, 62, 63]

/-- Zig-zag index to natural row-major index. -/
def zigzagToNatural (i : Nat) : Nat := zigzag.getD i 0

/-- Natural row-major index back to zig-zag index (inverse lookup). -/
def naturalToZigzag (j : Nat) : Nat := zigzag.indexOf j

/-- Modelled from the spec: the Bit Reader's traversal of entropy-coded
data (absent from `src/`).  Input is the byte stream from the cursor on;
output is the pair (entropy data bytes delivered to the decoder, remaining
stream).  A stuffed `0x00` after `0xFF` is stripped and the `0xFF` is
delivered as data; `0xFF` followed by a nonzero byte ends the entropy
segment with the whole marker left in the remaining stream (pushback for
the Marker Parser).  The function is pure: the caller's buffer is only
read, the cursor advance shows up as the remaining-stream suffix. -/
def readEntropy : List Nat → List Nat × List Nat
  | [] => ([], [])
  | [b] => if b = 255 then ([], [255]) else ([b], [])
  | b :: c :: rest =>
    if b = 255 then
      if c = 0 then
        let r := readEntropy rest
        (255 :: r.1, r.2)
      else ([], b :: c :: rest)
    else
      let r := readEntropy (c :: rest)
      (b :: r.1, r.2)

/-- Modelled from the spec: an event seen by the DC predictor during one
scan — either a decoded DC difference or a restart marker (the containing
entropy decoder is absent from `src/`). -/
inductive ScanEvent where
  | diff (d : Int)
  | restart
deriving DecidableEq, Repr

/-- Modelled from the spec: the DC predictor update of the Pipeline
Driver — a decoded difference `d` produces DC = predictor + `d` and that
DC becomes the new predictor; a restart marker resets the predictor to 0. -/
def dcStep (p : Int) : ScanEvent → Int
  | .diff d => p + d
  | .restart => 0

/-- The predictor after a prefix of scan events, from the scan-start
value 0. -/
def predictorAfter (events : List ScanEvent) : Int :=
  events.foldl dcStep 0

/-- The DC coefficients emitted over a list of scan events, starting from
predictor `p`. -/
def decodeDCsFrom (p : Int) : List ScanEvent → List Int
  | [] => []
  | .diff d :: rest => (p + d) :: decodeDCsFrom (p + d) rest
  | .restart :: rest => decodeDCsFrom 0 rest

/-- The DC coefficients of a whole scan (predictor starts at 0). -/
def decodeDCs (events : List ScanEvent) : List Int := decodeDCsFrom 0 events

/-- Modelled from the spec: the four error kinds of the decode core
(absent from `src/`). -/
inductive DecodeError where
  | FormatError (msg : String)
  | UnsupportedFeature
  | EndOfStream
  | ConsistencyError
deriving DecidableEq, Repr

/-- Modelled from the spec: the per-image decode context holding the
quantization and Huffman tables built so far, keyed by id (absent from
`src/`). -/
structure DecodeCtx where
  qtables : List (Nat × List Nat)
  htables : List (Nat × List Nat)
deriving DecidableEq, Repr

/-- The fresh context at the start of a decode: no table built yet. -/
def emptyCtx : DecodeCtx := ⟨[], []⟩

/-- Modelled from the spec: the SOI check of the Marker Parser state
machine — SOI (0xFF 0xD8) must be the first marker, otherwise the decode
fails with FormatError "missing SOI" (absent from `src/`). -/
def checkSOI (bytes : List Nat) : Except DecodeError (List Nat) :=
  match bytes with
  | b :: c :: rest =>
    if b = 255 then
      if c = 216 then .ok rest
      else .error (.FormatError "missing SOI")
    else .error (.FormatError "missing SOI")
  | _ => .error (.FormatError "missing SOI")

/-- A marker code in the SOF family (0xC0..0xCF minus DHT 0xC4, JPG 0xC8
and DAC 0xCC). -/
def isSOFMarker (m : Nat) : Bool :=
  decide (192 ≤ m) && decide (m ≤ 207) &&
    !(m == 196) && !(m == 200) && !(m == 204)

/-- Read the 2-byte big-endian segment length and return it with the bytes
after it. -/
def segLen (rest : List Nat) : Option (Nat × List Nat) :=
  match rest with
  | hi :: lo :: more => some (hi * 256 + lo, more)
  | _ => none

/-- Modelled from the spec: the Marker Parser's handling of one marker
segment other than SOS/EOI (absent from `src/`): baseline SOF 0xC0 is
accepted, every other SOF variant fails with UnsupportedFeature, DQT and
DHT record a table in the context, and any other marker with a length
field is skipped by consuming length - 2 bytes. -/
def handleSegment (ctx : DecodeCtx) (m : Nat) (rest : List Nat) :
    Except DecodeError (DecodeCtx × List Nat) :=
  if m = 192 then
    match segLen rest with
    | some (len, more) => .ok (ctx, more.drop (len - 2))
    | none => .error .EndOfStream
  else if isSOFMarker m then .error .UnsupportedFeature
  else if m = 219 then
    match segLen rest with
    | some (len, more) =>
      match more with
      | pq :: tbl =>
        .ok ({ ctx with qtables := (pq % 16, tbl.take 64) :: ctx.qtables },
             more.drop (len - 2))
      | [] => .error .EndOfStream
    | none => .error .EndOfStream
  else if m = 196 then
    match segLen rest with
    | some (len, more) =>
      match more with
      | tc :: tbl =>
        .ok ({ ctx with htables := (tc % 16, tbl.take (len - 3)) :: ctx.htables },
             more.drop (len - 2))
      | [] => .error .EndOfStream
    | none => .error .EndOfStream
  else
    match segLen rest with
    | some (len, more) => .ok (ctx, more.drop (len - 2))
    | none => .error .EndOfStream

/-- Modelled from the spec: the Marker Parser segment loop (absent from
`src/`), fuelled for termination.  EOI ends the image (bytes after EOI are
ignored), SOS hands the entropy data to the Bit Reader and continues at
the pushed-back marker, other markers go through `handleSegment`.  On any
error the loop stops at once and returns the error together with the
context as built so far; planes are produced only on success. -/
def parseSegments : Nat → DecodeCtx → List Nat →
    DecodeCtx × Except DecodeError (List (List Int))
  | 0, ctx, _ => (ctx, .error .ConsistencyError)
  | fuel + 1, ctx, bytes =>
    match bytes with
    | 255 :: m :: rest =>
      if m = 217 then (ctx, .ok [])
      else if m = 218 then
        parseSegments fuel ctx (readEntropy rest).2
      else
        match handleSegment ctx m rest with
        | .error e => (ctx, .error e)
        | .ok (ctx', rest') => parseSegments fuel ctx' rest'
    | _ => (ctx, .error (.FormatError "expected marker"))

/-- Modelled from the spec: the whole decode pipeline entry point (absent
from `src/`): check SOI first, then run the segment loop from the fresh
context. -/
def decodeImage (bytes : List Nat) :
    DecodeCtx × Except DecodeError (List (List Int)) :=
  match checkSOI bytes with
  | .error e => (emptyCtx, .error e)
  | .ok rest => parseSegments (bytes.length + 1) emptyCtx rest

/-- Modelled from the spec: canonical Huffman code assignment (absent from
`src/`).  Starting at length `L` with next code value `code`, the `n` codes
of the current length are assigned consecutive values in increasing numeric
order, then the next code value is doubled for the following length (the
standard JPEG canonical construction).  A code is a (length, value) pair. -/
def assignCodes : Nat → Nat → List Nat → List (Nat × Nat)
  | _, _, [] => []
  | L, code, n :: rest =>
    (List.range n).map (fun k => (L, code + k)) ++
      assignCodes (L + 1) ((code + n) * 2) rest

/-- The canonical code list for a code-length histogram (index i of
`counts` holds the count for length i + 1). -/
def buildCanonical (counts : List Nat) : List (Nat × Nat) :=
  assignCodes 1 0 counts

/-- Modelled from the spec: validity of a code-length histogram from
length `L` with next code value `code` — the construction fails with
FormatError when the total at some length exceeds the 2^L capacity, so a
valid histogram is one where every length stays within capacity. -/
def histValid : Nat → Nat → List Nat → Bool
  | _, _, [] => true
  | L, code, n :: rest =>
    decide (code + n ≤ 2 ^ L) && histValid (L + 1) ((code + n) * 2) rest

/-- A code-length histogram the canonical construction accepts. -/
def validHist (counts : List Nat) : Bool := histValid 1 0 counts

/-- `a` read as a bitstring of `a.1` bits is an initial segment of `b`
read as a bitstring of `b.1` bits. -/
def isPref (a b : Nat × Nat) : Prop :=
  a.1 ≤ b.1 ∧ b.2 / 2 ^ (b.1 - a.1) = a.2

/-- Neither of two codes is a bitstring prefix of the other. -/
def noPref (a b : Nat × Nat) : Prop := ¬isPref a b ∧ ¬isPref b a

end Stegtest

/-- C1: for every `argc` and `argv`, the program prints exactly the two
status lines "JPEG Parser Phase 1: Marker Parsing - Initializing" and
"JPEG Parser Execution Complete (Placeholder)", in that order, and nothing
else (in particular it performs no marker parsing, Huffman decoding, DCT
reconstruction or encoding: its output is this constant). -/
theorem stegtest_main_prints_two_lines (argc : Nat) (argv : List String) :
    (Stegtest.main argc argv).1.lines =
      ["JPEG Parser Phase 1: Marker Parsing - Initializing",
       "JPEG Parser Execution Complete (Placeholder)"] := rfl

/-- C2: for every `argc` and `argv`, `main` terminates (it is a total
function) and returns exit status 0. -/
theorem stegtest_main_returns_zero (argc : Nat) (argv : List String) :
    (Stegtest.main argc argv).2 = 0 := rfl

/-- C3: the observable behaviour of the program (stdout and return value)
is identical across any two invocations, whatever their command-line
arguments. -/
theorem stegtest_main_independent_of_args
    (argc₁ : Nat) (argv₁ : List String) (argc₂ : Nat) (argv₂ : List String) :
    Stegtest.main argc₁ argv₁ = Stegtest.main argc₂ argv₂ := rfl

namespace Stegtest

/-- The remaining stream after an entropy-coded segment is a suffix of the
input: the Bit Reader only advances a cursor. -/
lemma readEntropy_suffix :
    ∀ bytes : List Nat, ∃ k, (readEntropy bytes).2 = bytes.drop k
  | [] => ⟨0, rfl⟩
  | [b] => by
    by_cases hb : b = 255
    · exact ⟨0, by simp [readEntropy, hb]⟩
    · exact ⟨1, by simp [readEntropy, hb]⟩
  | b :: c :: rest => by
    by_cases hb : b = 255
    · by_cases hc : c = 0
      · obtain ⟨k, hk⟩ := readEntropy_suffix rest
        exact ⟨k + 2, by simp [readEntropy, hb, hc, hk]⟩
      · exact ⟨0, by simp [readEntropy, hb, hc]⟩
    · obtain ⟨k, hk⟩ := readEntropy_suffix (c :: rest)
      exact ⟨k + 1, by simp [readEntropy, hb, hk]⟩

/-- Emitting one more DC difference appends predictor + difference to the
decoded DC list. -/
lemma decodeDCsFrom_append_diff :
    ∀ (events : List ScanEvent) (p d : Int),
      decodeDCsFrom p (events ++ [ScanEvent.diff d]) =
        decodeDCsFrom p events ++ [events.foldl dcStep p + d]
  | [], p, d => by simp [decodeDCsFrom]
  | ScanEvent.diff e :: rest, p, d => by
    simp [decodeDCsFrom, dcStep, decodeDCsFrom_append_diff rest]
  | ScanEvent.restart :: rest, p, d => by
    simp [decodeDCsFrom, dcStep, decodeDCsFrom_append_diff rest]

end Stegtest

/-- C6: the zig-zag-to-natural mapping is a bijection on indices 0..63
(it lands in 0..63 and is injective there), and composing it with its
inverse lookup returns the original index for all 64 indices. -/
theorem stegtest_zigzag_bijection :
    (∀ i, i < 64 → Stegtest.zigzagToNatural i < 64) ∧
    (∀ i, i < 64 → ∀ j, j < 64 →
      Stegtest.zigzagToNatural i = Stegtest.zigzagToNatural j → i = j) ∧
    (∀ i, i < 64 →
      Stegtest.naturalToZigzag (Stegtest.zigzagToNatural i) = i) := by
  refine ⟨?_, ?_, ?_⟩ <;> decide

/-- C10: within entropy-coded data the Bit Reader strips every stuffed
0x00 following 0xFF (delivering the 0xFF as data), stops on 0xFF followed
by a nonzero byte leaving the whole marker in the remaining stream
(pushback for the Marker Parser), and never mutates the caller's buffer:
the remaining stream is always a suffix of the input (pure cursor
advance). -/
theorem stegtest_bitreader_stuffing :
    (∀ rest, Stegtest.readEntropy (255 :: 0 :: rest) =
      (255 :: (Stegtest.readEntropy rest).1, (Stegtest.readEntropy rest).2)) ∧
    (∀ x rest, x ≠ 0 →
      Stegtest.readEntropy (255 :: x :: rest) = ([], 255 :: x :: rest)) ∧
    (∀ bytes : List Nat, ∃ k,
      (Stegtest.readEntropy bytes).2 = bytes.drop k) := by
  refine ⟨fun rest => ?_, fun x rest hx => ?_, Stegtest.readEntropy_suffix⟩
  · simp [Stegtest.readEntropy]
  · simp [Stegtest.readEntropy, hx]

/-- Witness for C10 at the concrete stream [0xFF, 0xD9, 7]: the nonzero
byte after 0xFF ends the segment and the marker is pushed back whole. -/
theorem stegtest_bitreader_stuffing_witness :
    Stegtest.readEntropy [255, 217, 7] = ([], [255, 217, 7]) :=
  stegtest_bitreader_stuffing.2.1 217 [7] (by decide)

/-- C8: each decoded DC coefficient equals the component's previous
predictor plus the decoded difference, the predictor is 0 at scan start,
it is 0 immediately after every restart marker, and after a difference
event it equals the value just decoded (so resets happen exactly at scan
start and restart markers). -/
theorem stegtest_dc_differential :
    Stegtest.predictorAfter [] = 0 ∧
    (∀ pre, Stegtest.predictorAfter (pre ++ [Stegtest.ScanEvent.restart]) = 0) ∧
    (∀ pre d, Stegtest.predictorAfter (pre ++ [Stegtest.ScanEvent.diff d]) =
      Stegtest.predictorAfter pre + d) ∧
    (∀ pre d, Stegtest.decodeDCs (pre ++ [Stegtest.ScanEvent.diff d]) =
      Stegtest.decodeDCs pre ++ [Stegtest.predictorAfter pre + d]) := by
  refine ⟨rfl, fun pre => ?_, fun pre d => ?_, fun pre d => ?_⟩
  · simp [Stegtest.predictorAfter, Stegtest.dcStep]
  · simp [Stegtest.predictorAfter, Stegtest.dcStep]
  · simpa [Stegtest.decodeDCs, Stegtest.predictorAfter] using
      Stegtest.decodeDCsFrom_append_diff pre 0 d

/-- Witness for C6 at the concrete index 10: zig-zag index 10 maps to
natural position 32 and the inverse lookup returns 10. -/
theorem stegtest_zigzag_bijection_witness :
    Stegtest.naturalToZigzag (Stegtest.zigzagToNatural 10) = 10 :=
  stegtest_zigzag_bijection.2.2 10 (by decide)

/-- C4: for every byte stream that does not start with the SOI marker
0xFF 0xD8, the decode fails with FormatError "missing SOI" while the
context is still the fresh one — so before any quantization or Huffman
table is built. -/
theorem stegtest_missing_soi (bytes : List Nat)
    (h : bytes.take 2 ≠ [255, 216]) :
    Stegtest.decodeImage bytes =
      (Stegtest.emptyCtx,
       .error (Stegtest.DecodeError.FormatError "missing SOI")) ∧
    Stegtest.emptyCtx.qtables = [] ∧ Stegtest.emptyCtx.htables = [] := by
  refine ⟨?_, rfl, rfl⟩
  have hsoi : Stegtest.checkSOI bytes =
      .error (Stegtest.DecodeError.FormatError "missing SOI") := by
    match bytes with
    | [] => rfl
    | [b] => rfl
    | b :: c :: rest =>
      by_cases hb : b = 255
      · by_cases hc : c = 216
        · exact absurd (by simp [hb, hc]) h
        · simp [Stegtest.checkSOI, hb, hc]
      · simp [Stegtest.checkSOI, hb]
  simp [Stegtest.decodeImage, hsoi]

/-- Witness for C4 at the concrete stream [0x42]: no SOI, so the decode
fails with FormatError "missing SOI" on the fresh (table-free) context. -/
theorem stegtest_missing_soi_witness :
    Stegtest.decodeImage [66] =
      (Stegtest.emptyCtx,
       .error (Stegtest.DecodeError.FormatError "missing SOI")) ∧
    Stegtest.emptyCtx.qtables = [] ∧ Stegtest.emptyCtx.htables = [] :=
  stegtest_missing_soi [66] (by decide)

/-- C5: a stream positioned at any non-baseline SOF marker (any SOF
variant other than 0xC0, in particular progressive 0xC2) makes the
segment loop fail with UnsupportedFeature, whatever the context and
remaining fuel; in particular a whole image whose frame header uses such
a marker decodes to UnsupportedFeature rather than crashing or
misdecoding. -/
theorem stegtest_sof_unsupported :
    (∀ fuel ctx m rest, Stegtest.isSOFMarker m = true → m ≠ 192 →
      (Stegtest.parseSegments (fuel + 1) ctx (255 :: m :: rest)).2 =
        .error Stegtest.DecodeError.UnsupportedFeature) ∧
    (∀ m rest, Stegtest.isSOFMarker m = true → m ≠ 192 →
      (Stegtest.decodeImage (255 :: 216 :: 255 :: m :: rest)).2 =
        .error Stegtest.DecodeError.UnsupportedFeature) := by
  have core : ∀ fuel ctx m rest, Stegtest.isSOFMarker m = true → m ≠ 192 →
      (Stegtest.parseSegments (fuel + 1) ctx (255 :: m :: rest)).2 =
        .error Stegtest.DecodeError.UnsupportedFeature := by
    intro fuel ctx m rest hm h192
    have hm' := hm
    simp only [Stegtest.isSOFMarker, Bool.and_eq_true, decide_eq_true_eq,
      Bool.not_eq_true', beq_eq_false_iff_ne] at hm'
    obtain ⟨⟨⟨⟨hge, hle⟩, _⟩, _⟩, _⟩ := hm'
    have h217 : m ≠ 217 := by omega
    have h218 : m ≠ 218 := by omega
    simp [Stegtest.parseSegments, h217, h218, Stegtest.handleSegment,
      h192, hm]
  refine ⟨core, fun m rest hm h192 => ?_⟩
  have hlen : (255 :: 216 :: 255 :: m :: rest).length + 1 =
      (rest.length + 4) + 1 := by simp
  have : Stegtest.decodeImage (255 :: 216 :: 255 :: m :: rest) =
      Stegtest.parseSegments ((rest.length + 4) + 1) Stegtest.emptyCtx
        (255 :: m :: rest) := by
    simp [Stegtest.decodeImage, Stegtest.checkSOI, hlen]
  rw [this]
  exact core (rest.length + 4) Stegtest.emptyCtx m rest hm h192

/-- Witness for C5 at the concrete stream FF D8 FF C2: a progressive SOF
right after SOI fails the whole decode with UnsupportedFeature. -/
theorem stegtest_sof_unsupported_witness :
    (Stegtest.decodeImage [255, 216, 255, 194]).2 =
      .error Stegtest.DecodeError.UnsupportedFeature :=
  stegtest_sof_unsupported.2 194 [] (by decide) (by decide)

/-- C9: when a segment handler fails with any error, the segment loop
aborts at once, returning that very error with the context as it stood —
no further segment is processed — and a decode that ended in an error
never returns planes to the caller. -/
theorem stegtest_error_aborts :
    (∀ fuel ctx m rest e, m ≠ 217 → m ≠ 218 →
      Stegtest.handleSegment ctx m rest = .error e →
      Stegtest.parseSegments (fuel + 1) ctx (255 :: m :: rest) =
        (ctx, .error e)) ∧
    (∀ bytes ctxe e planes,
      Stegtest.decodeImage bytes = (ctxe, Except.error e) →
      (Stegtest.decodeImage bytes).2 ≠ Except.ok planes) := by
  constructor
  · intro fuel ctx m rest e h217 h218 hseg
    simp [Stegtest.parseSegments, h217, h218, hseg]
  · intro bytes ctxe e planes h
    rw [h]
    simp

/-- Witness for C9 at the concrete segment FF C2 with the fresh context:
the handler's UnsupportedFeature error is returned unchanged by the
loop. -/
theorem stegtest_error_aborts_witness :
    Stegtest.parseSegments 1 Stegtest.emptyCtx [255, 194] =
      (Stegtest.emptyCtx,
       .error Stegtest.DecodeError.UnsupportedFeature) :=
  stegtest_error_aborts.1 0 Stegtest.emptyCtx 194 []
    Stegtest.DecodeError.UnsupportedFeature (by decide) (by decide) rfl

namespace Stegtest

/-- The canonical construction emits exactly as many codes as the
histogram counts. -/
lemma assignCodes_length :
    ∀ (counts : List Nat) (L code : Nat),
      (assignCodes L code counts).length = counts.sum
  | [], _, _ => rfl
  | n :: rest, L, code => by
    simp [assignCodes, assignCodes_length rest]

/-- Every code emitted from state (L, code) has length at least L and
value at least `code` scaled up to its own length. -/
lemma assignCodes_lower :
    ∀ (counts : List Nat) (L code : Nat) (p : Nat × Nat),
      p ∈ assignCodes L code counts → L ≤ p.1 ∧ code * 2 ^ (p.1 - L) ≤ p.2
  | [], _, _, p => by intro hp; cases hp
  | n :: rest, L, code, p => by
    intro hp
    rw [assignCodes, List.mem_append] at hp
    rcases hp with hp | hp
    · obtain ⟨k, hk, rfl⟩ := List.mem_map.mp hp
      exact ⟨le_refl L, by simpa using Nat.le_add_right code k⟩
    · obtain ⟨h1, h2⟩ := assignCodes_lower rest (L + 1) ((code + n) * 2) p hp
      refine ⟨by omega, ?_⟩
      calc code * 2 ^ (p.1 - L)
          ≤ (code + n) * 2 ^ (p.1 - L) :=
            Nat.mul_le_mul_right _ (by omega)
        _ = (code + n) * 2 * 2 ^ (p.1 - (L + 1)) := by
            have hk : p.1 - L = (p.1 - (L + 1)) + 1 := by omega
            rw [hk, pow_succ]; ring
        _ ≤ p.2 := h2

/-- Under a valid histogram every emitted code value fits in its own
length: value < 2 ^ length. -/
lemma assignCodes_upper :
    ∀ (counts : List Nat) (L code : Nat),
      histValid L code counts = true →
      ∀ p, p ∈ assignCodes L code counts → p.2 < 2 ^ p.1
  | [], _, _ => by intro _ p hp; cases hp
  | n :: rest, L, code => by
    intro hv p hp
    rw [histValid, Bool.and_eq_true, decide_eq_true_eq] at hv
    obtain ⟨hcap, htail⟩ := hv
    rw [assignCodes, List.mem_append] at hp
    rcases hp with hp | hp
    · obtain ⟨k, hk, rfl⟩ := List.mem_map.mp hp
      have hkn := List.mem_range.mp hk
      simpa using lt_of_lt_of_le (by omega : code + k < code + n) hcap
    · exact assignCodes_upper rest (L + 1) ((code + n) * 2) htail p hp

/-- The canonical code list is pairwise prefix-free. -/
lemma assignCodes_pairwise :
    ∀ (counts : List Nat) (L code : Nat),
      (assignCodes L code counts).Pairwise noPref
  | [], _, _ => List.Pairwise.nil
  | n :: rest, L, code => by
    rw [assignCodes, List.pairwise_append]
    refine ⟨?_, assignCodes_pairwise rest (L + 1) ((code + n) * 2), ?_⟩
    · rw [List.pairwise_map]
      refine List.Pairwise.imp ?_ (List.pairwise_lt_range n)
      intro k1 k2 hlt
      simp only [noPref, isPref]
      constructor
      · rintro ⟨hle, hdiv⟩
        simp at hdiv
        omega
      · rintro ⟨hle, hdiv⟩
        simp at hdiv
        omega
    · intro x hx y hy
      obtain ⟨k, hk, rfl⟩ := List.mem_map.mp hx
      obtain ⟨hy1, hy2⟩ := assignCodes_lower rest (L + 1) ((code + n) * 2) y hy
      have hkn := List.mem_range.mp hk
      simp only [noPref, isPref]
      constructor
      · rintro ⟨hle, hdiv⟩
        have hpow : 0 < 2 ^ (y.1 - L) := pow_pos (by norm_num) _
        have hge : code + n ≤ y.2 / 2 ^ (y.1 - L) := by
          rw [Nat.le_div_iff_mul_le hpow]
          calc (code + n) * 2 ^ (y.1 - L)
              = (code + n) * 2 * 2 ^ (y.1 - (L + 1)) := by
                have hs : y.1 - L = (y.1 - (L + 1)) + 1 := by omega
                rw [hs, pow_succ]; ring
            _ ≤ y.2 := hy2
        rw [hdiv] at hge
        omega
      · rintro ⟨hle, hdiv⟩
        omega

end Stegtest

/-- C7: for every valid code-length histogram, canonical Huffman
construction emits exactly as many codes as the histogram's total count,
every code value fits in its code length, and the code set is prefix-free:
no generated code is a bitstring prefix of another. -/
theorem stegtest_huffman_canonical (counts : List Nat)
    (h : Stegtest.validHist counts = true) :
    (Stegtest.buildCanonical counts).length = counts.sum ∧
    (Stegtest.buildCanonical counts).Pairwise Stegtest.noPref ∧
    (∀ p ∈ Stegtest.buildCanonical counts, p.2 < 2 ^ p.1) :=
  ⟨Stegtest.assignCodes_length counts 1 0,
   Stegtest.assignCodes_pairwise counts 1 0,
   fun p hp => Stegtest.assignCodes_upper counts 1 0 h p hp⟩

/-- Witness for C7 at the concrete histogram [0, 2, 3] (two codes of
length 2, three of length 3): the construction yields five prefix-free
codes. -/
theorem stegtest_huffman_canonical_witness :
    Stegtest.validHist [0, 2, 3] = true ∧
    ((Stegtest.buildCanonical [0, 2, 3]).length = [0, 2, 3].sum ∧
     (Stegtest.buildCanonical [0, 2, 3]).Pairwise Stegtest.noPref ∧
     (∀ p ∈ Stegtest.buildCanonical [0, 2, 3], p.2 < 2 ^ p.1)) :=
  ⟨by decide, stegtest_huffman_canonical [0, 2, 3] (by decide)⟩

/-- Witness for C8 at a concrete scan: after decoding difference 5, the
next difference 3 decodes to DC = 5 + 3. -/
theorem stegtest_dc_differential_witness :
    Stegtest.decodeDCs
        ([Stegtest.ScanEvent.diff 5] ++ [Stegtest.ScanEvent.diff 3]) =
      Stegtest.decodeDCs [Stegtest.ScanEvent.diff 5] ++
        [Stegtest.predictorAfter [Stegtest.ScanEvent.diff 5] + 3] :=
  stegtest_dc_differential.2.2.2 [Stegtest.ScanEvent.diff 5] 3
